import Mathlib

/-!
Verification development for the Phantom-Portfolio-Grid interactive grid engine.

The embedding models the coordinate mapper (`screenToWorld`), the project
lookup (`getProjectByCellId`), the fragment shader's scene-coordinate and
atlas-indexing math (`shaders.ts`), the interaction state machine
(`navigateToCell` / `unzoom` / `handleInteraction` from `useInteraction.ts`),
the per-frame integrator (`useAnimationLoop.ts`) and the nonce-guarded video
activation protocol (`useVideoManager.ts`).

Numbers are modelled by exact rationals (JavaScript numbers are floats; here
all stated identities are exact, hence hold "to within floating-point
tolerance").  JavaScript's truncating `%` on integers is `Int.tmod`;
`Math.floor` is `Int.floor`.  GLSL operations that are undefined (division by
zero, `mod` with zero modulus) are modelled in an `Option` monad.
-/

namespace Grid

-- Constants from `config.ts` (`AnimationConfig`).
namespace AnimationConfig

def springStiffness : ℚ := 5 / 100
def damping : ℚ := 75 / 100
def lerpFactor : ℚ := 1 / 10
def scrollSpeed : ℚ := 1 / 1000
def swipeThreshold : ℚ := 50
def tapThreshold : ℚ := 10
def zoomedInLevel : ℚ := 3 / 10
def defaultZoomLevel : ℚ := 1

end AnimationConfig

/-- A 2-component vector of exact rationals (THREE.Vector2 / GLSL vec2). -/
structure Vec2 where
  x : ℚ
  y : ℚ
deriving DecidableEq, Repr

namespace Vec2

def add (a b : Vec2) : Vec2 := ⟨a.x + b.x, a.y + b.y⟩

def sub (a b : Vec2) : Vec2 := ⟨a.x - b.x, a.y - b.y⟩

/-- Componentwise product (THREE.Vector2.multiply / GLSL `*` on vec2). -/
def mulV (a b : Vec2) : Vec2 := ⟨a.x * b.x, a.y * b.y⟩

def mulS (a : Vec2) (s : ℚ) : Vec2 := ⟨a.x * s, a.y * s⟩

def addScalar (a : Vec2) (s : ℚ) : Vec2 := ⟨a.x + s, a.y + s⟩

/-- The squared Euclidean norm.  The source computes `v.length() * v.length()`
(`sqrt(x²+y²)` squared), which equals `x² + y²` exactly. -/
def lengthSq (a : Vec2) : ℚ := a.x * a.x + a.y * a.y

/-- Componentwise `Math.floor` (used for cell ids). -/
def floorV (a : Vec2) : ℤ × ℤ := (⌊a.x⌋, ⌊a.y⌋)

end Vec2

/-- `getProjectByCellId` from `hooks/hookUtils.ts`:

```
if (!id || !projects || projects.length === 0) return null;
const flatIndex = Math.floor(id.x) + Math.floor(id.y) * 3;
const projectIndex = ((flatIndex % projects.length) + projects.length) % projects.length;
return projects[projectIndex];
```

JavaScript `%` on integers is truncating division remainder (`Int.tmod`). -/
def getProjectByCellId {α : Type} (id : Option Vec2) (projects : List α) : Option α :=
  match id with
  | none => none
  | some p =>
    if projects.length = 0 then none
    else
      let flatIndex : ℤ := ⌊p.x⌋ + ⌊p.y⌋ * 3
      let n : ℤ := (projects.length : ℤ)
      let projectIndex : ℤ := ((flatIndex.tmod n) + n).tmod n
      projects[projectIndex.toNat]?

/-- `screenToWorld` from `hooks/hookUtils.ts`:

```
const ndc = new THREE.Vector2((screenPos.x / res.x) * 2 - 1, -(screenPos.y / res.y) * 2 + 1);
const distorted = ndc.clone().multiplyScalar(1.0 - distortion * 0.08 * ndc.length() * ndc.length());
const aspect = new THREE.Vector2(res.x / res.y, 1.0);
return distorted.multiply(aspect).multiplyScalar(zoom).add(offset);
```
-/
def screenToWorld (screenPos res offset : Vec2) (zoom distortion : ℚ) : Vec2 :=
  let ndc : Vec2 := ⟨(screenPos.x / res.x) * 2 - 1, -(screenPos.y / res.y) * 2 + 1⟩
  let distorted := ndc.mulS (1 - distortion * (8 / 100) * ndc.lengthSq)
  let aspect : Vec2 := ⟨res.x / res.y, 1⟩
  ((distorted.mulV aspect).mulS zoom).add offset

/-- The world-space formula exactly as the specification words it (claim C3):
`ndc = ((px/resX)*2 - 1, -((py/resY)*2 - 1))`, then
`world = (ndc * (1 - distortion*0.08*|ndc|²)) * (resX/resY, 1) * zoom + offset`. -/
def screenToWorld_specFormula (screenPos res offset : Vec2) (zoom distortion : ℚ) : Vec2 :=
  let ndc : Vec2 := ⟨(screenPos.x / res.x) * 2 - 1, -((screenPos.y / res.y) * 2 - 1)⟩
  let factor := 1 - distortion * (8 / 100) * ndc.lengthSq
  ((ndc.mulS factor).mulV ⟨res.x / res.y, 1⟩).mulS zoom |>.add offset

/-- GLSL `smoothstep(edge0, edge1, x)`:
`t = clamp((x - edge0)/(edge1 - edge0), 0, 1); t*t*(3 - 2*t)`. -/
def glslSmoothstep (edge0 edge1 x : ℚ) : ℚ :=
  let t := max 0 (min 1 ((x - edge0) / (edge1 - edge0)))
  t * t * (3 - 2 * t)

/-- The world coordinate computed per pixel by the fragment shader's
`getSceneColor` (`shaders.ts`, steps 1–3).  `sqrtQ` and `sinQ` stand for the
GLSL `length`-after-root and `sin` intrinsics (irrational in general; only the
ripple branch uses them, and it is skipped when `uOptimizeMobile` is set):

```
vec2 screenUV = (uv - 0.5) * 2.0;
float radius = length(screenUV);
float distortion = 1.0 - uDistortionStrength * 0.08 * radius * radius;
vec2 distortedUV = screenUV * distortion;
vec2 aspectRatio = vec2(uResolution.x / uResolution.y, 1.0);
vec2 worldCoord = distortedUV * aspectRatio;
worldCoord *= uZoom;  worldCoord += uOffset;
vec2 mouseScreenUV = (uMousePos / uResolution) * 2.0 - 1.0;
mouseScreenUV.y = -mouseScreenUV.y;
vec2 mouseWorldCoord = (mouseScreenUV * aspectRatio) * uZoom + uOffset;
if (!uOptimizeMobile) { ... worldCoord.xy += ripple; }
```
-/
def shaderWorldCoord (uv uResolution uOffset uMousePos : Vec2)
    (uZoom uDistortionStrength uCellSize uTime : ℚ) (uOptimizeMobile : Bool)
    (sqrtQ sinQ : ℚ → ℚ) : Vec2 :=
  let screenUV := (uv.sub ⟨1/2, 1/2⟩).mulS 2
  let radiusSq := screenUV.lengthSq
  let distortion := 1 - uDistortionStrength * (8 / 100) * radiusSq
  let distortedUV := screenUV.mulS distortion
  let aspectRatio : Vec2 := ⟨uResolution.x / uResolution.y, 1⟩
  let worldCoord := ((distortedUV.mulV aspectRatio).mulS uZoom).add uOffset
  let mouseScreenUV : Vec2 :=
    ⟨(uMousePos.x / uResolution.x) * 2 - 1, -((uMousePos.y / uResolution.y) * 2 - 1)⟩
  let mouseWorldCoord := ((mouseScreenUV.mulV aspectRatio).mulS uZoom).add uOffset
  if uOptimizeMobile then worldCoord
  else
    let distToMouseRipple := sqrtQ ((mouseWorldCoord.sub worldCoord).lengthSq)
    let rippleFalloff := glslSmoothstep (uCellSize * (3/2)) 0 distToMouseRipple
    let ripple := sinQ (distToMouseRipple * 12 - uTime * 3) * rippleFalloff * (2/1000)
    worldCoord.addScalar ripple

/-- The cell id the fragment shader assigns to a pixel
(`vec2 cellPos = worldCoord / uCellSize; vec2 cellId = floor(cellPos);`). -/
def shaderCellId (uv uResolution uOffset uMousePos : Vec2)
    (uZoom uDistortionStrength uCellSize uTime : ℚ) (uOptimizeMobile : Bool)
    (sqrtQ sinQ : ℚ → ℚ) : ℤ × ℤ :=
  let w := shaderWorldCoord uv uResolution uOffset uMousePos uZoom
    uDistortionStrength uCellSize uTime uOptimizeMobile sqrtQ sinQ
  (⟨w.x / uCellSize, w.y / uCellSize⟩ : Vec2).floorV

/-- The cell id the CPU assigns to a screen position: `screenToWorld` then
`Math.floor(world / cellSize)` componentwise (as in `handleInteraction` and
the hover detection of `useAnimationLoop.ts`). -/
def cpuCellId (screenPos res offset : Vec2) (zoom distortion cellSize : ℚ) : ℤ × ℤ :=
  let w := screenToWorld screenPos res offset zoom distortion
  (⟨w.x / cellSize, w.y / cellSize⟩ : Vec2).floorV

end Grid

namespace Grid

/-- JavaScript's double-`%` wrap `((a % n) + n) % n` (truncating `%`) equals
the Euclidean remainder `a % n` (Lean's `Int.emod`) for positive `n`. -/
theorem tmod_wrap_eq_emod (a n : ℤ) (hn : 0 < n) :
    ((a.tmod n) + n).tmod n = a % n := by
  have hneg : -n < a.tmod n := by
    rcases le_or_lt 0 a with h | h
    · have := Int.tmod_nonneg n h; linarith
    · have h1 : (-a).tmod n < n := Int.tmod_lt_of_pos _ hn
      have h2 : a.tmod n = -((-a).tmod n) := by
        rw [Int.tmod_def, Int.tmod_def, Int.neg_tdiv]; ring
      rw [h2]; linarith
  have hnonneg : 0 ≤ a.tmod n + n := by linarith
  rw [Int.tmod_eq_emod hnonneg (le_of_lt hn)]
  rw [Int.tmod_def a n]
  have h3 : a - n * a.tdiv n + n = a + n * (1 - a.tdiv n) := by ring
  rw [h3, Int.add_mul_emod_self_left]

/-- C2: for all integers `x`, `y` and every project list of length `N ≥ 1`,
`getProjectByCellId ⟨x, y⟩ projects` returns
`projects[((x + y*3) mod N + N) mod N]` with `mod` the Euclidean modulo
(Lean's `%` on `ℤ`), and the lookup always succeeds (the index is in bounds);
in particular (see the witness) for `N = 9` the cell `(-1, 0)` has flat index
`-1` and maps to index `8`, the last project. -/
theorem wrap_invariant {α : Type} (x y : ℤ) (ps : List α) (h : 1 ≤ ps.length) :
    getProjectByCellId (some ⟨(x : ℚ), (y : ℚ)⟩) ps
      = ps[(((x + y * 3) % (ps.length : ℤ) + (ps.length : ℤ)) % (ps.length : ℤ)).toNat]?
    ∧ (getProjectByCellId (some ⟨(x : ℚ), (y : ℚ)⟩) ps).isSome = true := by
  have hn : (0 : ℤ) < (ps.length : ℤ) := by exact_mod_cast h
  have hne : ¬ ps.length = 0 := by omega
  have hemod : ((x + y * 3) % (ps.length : ℤ) + (ps.length : ℤ)) % (ps.length : ℤ)
      = (x + y * 3) % (ps.length : ℤ) := by
    rw [Int.add_emod_self, Int.emod_emod_of_dvd _ dvd_rfl]
  have hunfold : getProjectByCellId (some ⟨(x : ℚ), (y : ℚ)⟩) ps
      = ps[((x + y * 3) % (ps.length : ℤ)).toNat]? := by
    simp only [getProjectByCellId, hne, if_false, Int.floor_intCast]
    rw [tmod_wrap_eq_emod _ _ hn]
  have hlt : ((x + y * 3) % (ps.length : ℤ)).toNat < ps.length := by
    have h1 : 0 ≤ (x + y * 3) % (ps.length : ℤ) := Int.emod_nonneg _ (by omega)
    have h2 : (x + y * 3) % (ps.length : ℤ) < (ps.length : ℤ) :=
      Int.emod_lt_of_pos _ hn
    omega
  refine ⟨by rw [hunfold, hemod], ?_⟩
  rw [hunfold, List.getElem?_eq_getElem hlt]
  rfl

/-- Witness for C2 at the concrete instance from the claim: nine projects,
cell `(-1, 0)`, flat index `-1`, Euclidean index `8` — the last project. -/
theorem wrap_invariant_witness :
    (getProjectByCellId (some ⟨((-1 : ℤ) : ℚ), ((0 : ℤ) : ℚ)⟩) [0,1,2,3,4,5,6,7,8]
        = [0,1,2,3,4,5,6,7,8][(((-1 + 0 * 3) % (9 : ℤ) + 9) % 9).toNat]?)
    ∧ getProjectByCellId (some ⟨((-1 : ℤ) : ℚ), ((0 : ℤ) : ℚ)⟩) [0,1,2,3,4,5,6,7,8]
        = some 8 := by
  refine ⟨(wrap_invariant (-1) 0 [0,1,2,3,4,5,6,7,8] (by decide)).1, by decide⟩

/-- C8: `getProjectByCellId` fails closed: for every cellId (including null)
and an empty project list it returns `none`; a null cellId returns `none` for
every list.  (The function is total in Lean, so it cannot throw, divide by
zero, or index out of bounds.) -/
theorem empty_list_fails_closed {α : Type} :
    (∀ id : Option Vec2, getProjectByCellId id ([] : List α) = none)
    ∧ (∀ ps : List α, getProjectByCellId none ps = none) := by
  refine ⟨fun id => ?_, fun ps => rfl⟩
  cases id <;> simp [getProjectByCellId]

/-- C3: `screenToWorld` computes exactly the formula stated in the spec:
NDC with Y flipped, the approximate inverse barrel-distortion factor
`1 - distortion*0.08*|ndc|²` applied to the NDC vector, then aspect
`(resX/resY, 1)`, zoom and offset applied in that order. -/
theorem screenToWorld_matches_spec_formula (screenPos res offset : Vec2)
    (zoom distortion : ℚ) :
    screenToWorld screenPos res offset zoom distortion
      = screenToWorld_specFormula screenPos res offset zoom distortion := by
  simp only [screenToWorld, screenToWorld_specFormula, Vec2.mulS, Vec2.mulV,
    Vec2.add, Vec2.lengthSq, Vec2.mk.injEq]
  constructor <;> ring

/-- C1: with distortion 0 and the ripple displacement disabled
(`uOptimizeMobile = true`), the fragment shader's `getSceneColor` assigns the
pixel at screen position `(px, py)` (whose interpolated plane uv is
`(px/resX, 1 - py/resY)`: uv has origin at the bottom-left while pixel y is
measured from the top) exactly the cell id the CPU computes by
`screenToWorld` followed by `floor(world / cellSize)` — for every resolution,
offset, zoom and cellSize.  The equality is exact, hence within
floating-point tolerance. -/
theorem cpu_gpu_cell_agreement (px py resX resY zoom cellSize uTime : ℚ)
    (offset mousePos : Vec2) (sqrtQ sinQ : ℚ → ℚ) :
    shaderCellId ⟨px / resX, 1 - py / resY⟩ ⟨resX, resY⟩ offset mousePos
        zoom 0 cellSize uTime true sqrtQ sinQ
      = cpuCellId ⟨px, py⟩ ⟨resX, resY⟩ offset zoom 0 cellSize := by
  simp only [shaderCellId, cpuCellId, shaderWorldCoord, screenToWorld,
    Vec2.mulS, Vec2.mulV, Vec2.add, Vec2.sub, Vec2.lengthSq, Vec2.floorV,
    if_true, Prod.mk.injEq]
  constructor <;> · congr 1; ring

end Grid

namespace Grid

/-- The mutable interaction/animation context (`ThreeContext` in
`hooks/types.ts`) together with the shader uniforms the modelled code reads
and writes (`uResolution`, `uCellSize`, `uZoom`, `uDistortionStrength`,
`uZoomProgress`, `uTime`).  `hoveredCellId` is a plain `Vec2` because the
source initializes it to the sentinel `(-999, -999)`. -/
structure Ctx where
  offset : Vec2
  targetOffset : Vec2
  offsetVelocity : Vec2
  mousePos : Vec2
  targetMousePos : Vec2
  previousMouse : Vec2
  zoom : ℚ
  targetZoom : ℚ
  distortion : ℚ
  targetDistortion : ℚ
  zoomProgress : ℚ
  isZoomed : Bool
  isDragging : Bool
  lastOffset : Vec2
  lastZoom : ℚ
  hoveredCellId : Vec2
  zoomedCellId : Option Vec2
  uResolution : Vec2
  uCellSize : ℚ
  uZoom : ℚ
  uDistortionStrength : ℚ
  uZoomProgress : ℚ
  uTime : ℚ
deriving DecidableEq, Repr

/-- The initial context per `AnimationConfig.initialState` (`config.ts`) and
the vector initialization in `useThreeSetup.ts` (zero vectors, mouse at
`(-1,-1)`, hovered cell sentinel `(-999,-999)`), with the uniform defaults of
`useThreeSetup.ts` (`uZoom: 1.0, uDistortionStrength: 1.0, uCellSize: 0.75,
uZoomProgress: 0.0, uTime: 0.0`). -/
def initialCtx : Ctx where
  offset := ⟨0, 0⟩
  targetOffset := ⟨0, 0⟩
  offsetVelocity := ⟨0, 0⟩
  mousePos := ⟨-1, -1⟩
  targetMousePos := ⟨-1, -1⟩
  previousMouse := ⟨0, 0⟩
  zoom := 1
  targetZoom := 1
  distortion := 1
  targetDistortion := 1
  zoomProgress := 0
  isZoomed := false
  isDragging := false
  lastOffset := ⟨0, 0⟩
  lastZoom := 1
  hoveredCellId := ⟨-999, -999⟩
  zoomedCellId := none
  uResolution := ⟨0, 0⟩
  uCellSize := 3 / 4
  uZoom := 1
  uDistortionStrength := 1
  uZoomProgress := 0
  uTime := 0

/-- `navigateToCell` from `useInteraction.ts` (the context mutations; the
project lookup / focused-project / video-request side effects act on other
state and are modelled where the corresponding claims need them):

```
if (isInitialZoom) {
  context.lastOffset.copy(context.targetOffset);
  context.lastZoom = context.targetZoom;
  context.targetZoom = AnimationConfig.zoomedInLevel;
  context.targetDistortion = 0.0;
  context.isZoomed = true;
}
context.targetOffset.copy(cellId.clone().addScalar(0.5)).multiplyScalar(currentCellSize);
context.zoomedCellId = cellId.clone();
```
-/
def navigateToCell (cellId : Vec2) (isInitialZoom : Bool) (c : Ctx) : Ctx :=
  let c1 :=
    if isInitialZoom then
      { c with lastOffset := c.targetOffset
               lastZoom := c.targetZoom
               targetZoom := AnimationConfig.zoomedInLevel
               targetDistortion := 0
               isZoomed := true }
    else c
  { c1 with targetOffset := (cellId.addScalar (1/2)).mulS c1.uCellSize
            zoomedCellId := some cellId }

/-- `unzoom` from `useInteraction.ts`:

```
context.targetOffset.copy(context.lastOffset);
context.targetZoom = context.lastZoom;
context.targetDistortion = 1.0;
context.isZoomed = false;
context.zoomedCellId = null;
```
-/
def unzoom (c : Ctx) : Ctx :=
  { c with targetOffset := c.lastOffset
           targetZoom := c.lastZoom
           targetDistortion := 1
           isZoomed := false
           zoomedCellId := none }

/-- `Math.sign`. -/
def signQ (q : ℚ) : ℚ := if 0 < q then 1 else if q < 0 then -1 else 0

/-- `delta.length() < AnimationConfig.tapThreshold` (`useInteraction.ts`),
with the computed gesture magnitude passed in for `delta.length()`. -/
def isTapGesture (deltaLen : ℚ) : Bool := deltaLen < AnimationConfig.tapThreshold

/-- `delta.length() > AnimationConfig.swipeThreshold` (`useInteraction.ts`). -/
def isSwipeGesture (deltaLen : ℚ) : Bool := AnimationConfig.swipeThreshold < deltaLen

/-- `handleInteraction` from `useInteraction.ts`.  `deltaLen` stands for the
source's `delta.length()` (the Euclidean magnitude of `delta`, irrational in
general, hence passed as a value).  When the source is zoomed it dereferences
`zoomedCellId` unconditionally; the `none` branch is unreachable there and
modelled as a no-op:

```
const worldCoord = screenToWorld(clickPos, context);
const tappedCellId = new THREE.Vector2(Math.floor(worldCoord.x / currentCellSize),
                                       Math.floor(worldCoord.y / currentCellSize));
const isTap = delta.length() < AnimationConfig.tapThreshold;
const isSwipe = delta.length() > AnimationConfig.swipeThreshold;
if (isZoomed) {
  if (isTap) {
    if (tappedCellId.equals(zoomedCellId)) unzoom();
    else navigateToCell(tappedCellId, false);
  } else if (isSwipe) {
    const nextCell = zoomedCellId.clone();
    if (Math.abs(delta.x) > Math.abs(delta.y)) nextCell.x -= Math.sign(delta.x);
    else nextCell.y += Math.sign(delta.y);
    navigateToCell(nextCell, false);
  }
} else if (isTap) {
  navigateToCell(tappedCellId, true);
}
```
-/
def handleInteraction (clickPos delta : Vec2) (deltaLen : ℚ) (c : Ctx) : Ctx :=
  let worldCoord := screenToWorld clickPos c.uResolution c.offset c.zoom c.distortion
  let tappedCellId : Vec2 :=
    ⟨(⌊worldCoord.x / c.uCellSize⌋ : ℤ), (⌊worldCoord.y / c.uCellSize⌋ : ℤ)⟩
  if c.isZoomed then
    if isTapGesture deltaLen then
      if some tappedCellId = c.zoomedCellId then unzoom c
      else navigateToCell tappedCellId false c
    else if isSwipeGesture deltaLen then
      match c.zoomedCellId with
      | some z =>
        let nextCell : Vec2 :=
          if |delta.x| > |delta.y| then ⟨z.x - signQ delta.x, z.y⟩
          else ⟨z.x, z.y + signQ delta.y⟩
        navigateToCell nextCell false c
      | none => c
    else c
  else if isTapGesture deltaLen then navigateToCell tappedCellId true c
  else c

/-- One iteration of the `requestAnimationFrame` body in
`useAnimationLoop.ts`: spring physics on the offset, lerp smoothing of
mouse/zoom/distortion/zoomProgress, hover-cell recomputation when not zoomed,
drag panning when dragging and not zoomed, then the uniform push
(`uZoom`, `uDistortionStrength`, `uZoomProgress`, `uTime += 0.016`).
The `setVideoState` side effect on hover change acts on the video subsystem
modelled separately for claim C5. -/
def animateStep (c : Ctx) : Ctx :=
  let force := (c.targetOffset.sub c.offset).mulS AnimationConfig.springStiffness
  let offsetVelocity := (c.offsetVelocity.add force).mulS AnimationConfig.damping
  let offset := c.offset.add offsetVelocity
  let mousePos := c.mousePos.add ((c.targetMousePos.sub c.mousePos).mulS AnimationConfig.lerpFactor)
  let zoom := c.zoom + (c.targetZoom - c.zoom) * AnimationConfig.lerpFactor
  let distortion := c.distortion + (c.targetDistortion - c.distortion) * AnimationConfig.lerpFactor
  let zoomProgress := c.zoomProgress
    + ((if c.isZoomed then 1 else 0) - c.zoomProgress) * AnimationConfig.lerpFactor
  -- Hover detection (not zoomed): recompute the hovered cell from the raw
  -- target mouse position.
  let hoveredCellId :=
    if c.isZoomed then c.hoveredCellId
    else
      let w := screenToWorld c.targetMousePos c.uResolution offset zoom distortion
      (⟨(⌊w.x / c.uCellSize⌋ : ℤ), (⌊w.y / c.uCellSize⌋ : ℤ)⟩ : Vec2)
  -- Drag panning (dragging, not zoomed, positive resolution height).
  let dragActive := c.isDragging && !c.isZoomed && decide (0 < c.uResolution.y)
  let delta := c.targetMousePos.sub c.previousMouse
  let moveSpeed := 2 / c.uResolution.y
  let aspect := c.uResolution.x / c.uResolution.y
  let targetOffset :=
    if dragActive then
      ⟨c.targetOffset.x - delta.x * moveSpeed * zoom * aspect,
       c.targetOffset.y + delta.y * moveSpeed * zoom⟩
    else c.targetOffset
  let previousMouse := if dragActive then c.targetMousePos else c.previousMouse
  { c with offset := offset, offsetVelocity := offsetVelocity, mousePos := mousePos,
           zoom := zoom, distortion := distortion, zoomProgress := zoomProgress,
           hoveredCellId := hoveredCellId, targetOffset := targetOffset,
           previousMouse := previousMouse,
           uZoom := zoom, uDistortionStrength := distortion,
           uZoomProgress := zoomProgress, uTime := c.uTime + 16/1000 }

/-- The scalar-uniform effect of `useUniforms` (`textureUtils.ts`): writes the
`cellSize` and `distortionStrength` props into the `uCellSize` and
`uDistortionStrength` uniforms. -/
def useUniformsScalar (cellSize distortionStrength : ℚ) (c : Ctx) : Ctx :=
  { c with uCellSize := cellSize, uDistortionStrength := distortionStrength }

end Grid

namespace Grid

/-- C4: from every starting camera state, `navigateToCell cellA true` followed
by `unzoom` restores `targetOffset` and `targetZoom` exactly to their pre-zoom
values (pure snapshot/restore through `lastOffset`/`lastZoom`), restores
`targetDistortion` to the ambient pre-zoom baseline `1.0`
(`initialCtx.targetDistortion`), sets `isZoomed = false` and
`zoomedCellId = none`. -/
theorem zoom_round_trip (c : Ctx) (cellA : Vec2) :
    (unzoom (navigateToCell cellA true c)).targetOffset = c.targetOffset
    ∧ (unzoom (navigateToCell cellA true c)).targetZoom = c.targetZoom
    ∧ (unzoom (navigateToCell cellA true c)).targetDistortion
        = initialCtx.targetDistortion
    ∧ (unzoom (navigateToCell cellA true c)).isZoomed = false
    ∧ (unzoom (navigateToCell cellA true c)).zoomedCellId = none := by
  refine ⟨?_, ?_, ?_, ?_, ?_⟩ <;> simp [unzoom, navigateToCell, initialCtx]

/-- C6: a release gesture of magnitude `m` is a Tap exactly when `m < 10`, a
Swipe exactly when `m > 50`, and neither when `10 ≤ m ≤ 50` — both boundary
values `10` and `50` yield neither, and in the neither band
`handleInteraction` leaves the context unchanged (no navigation); magnitude
`5` is a Tap, `60` a Swipe, `30` neither. -/
theorem tap_swipe_classification (m : ℚ) :
    (isTapGesture m = true ↔ m < 10)
    ∧ (isSwipeGesture m = true ↔ 50 < m)
    ∧ (10 ≤ m → m ≤ 50 →
        isTapGesture m = false ∧ isSwipeGesture m = false
        ∧ ∀ (clickPos delta : Vec2) (c : Ctx),
            handleInteraction clickPos delta m c = c)
    ∧ isTapGesture 5 = true ∧ isSwipeGesture 60 = true
    ∧ (isTapGesture 30 = false ∧ isSwipeGesture 30 = false)
    ∧ (isTapGesture 10 = false ∧ isSwipeGesture 10 = false)
    ∧ (isTapGesture 50 = false ∧ isSwipeGesture 50 = false) := by
  have htap : ∀ q : ℚ, isTapGesture q = true ↔ q < 10 := by
    intro q
    simp [isTapGesture, AnimationConfig.tapThreshold]
  have hswipe : ∀ q : ℚ, isSwipeGesture q = true ↔ 50 < q := by
    intro q
    simp [isSwipeGesture, AnimationConfig.swipeThreshold]
  refine ⟨htap m, hswipe m, fun h1 h2 => ?_, ?_, ?_, ?_, ?_, ?_⟩
  · have ht : isTapGesture m = false := by
      rw [Bool.eq_false_iff]
      intro hc
      exact absurd ((htap m).mp hc) (by linarith)
    have hs : isSwipeGesture m = false := by
      rw [Bool.eq_false_iff]
      intro hc
      exact absurd ((hswipe m).mp hc) (by linarith)
    refine ⟨ht, hs, fun clickPos delta c => ?_⟩
    cases hz : c.isZoomed <;> simp [handleInteraction, ht, hs, hz]
  · exact (htap 5).mpr (by norm_num)
  · exact (hswipe 60).mpr (by norm_num)
  · constructor
    · rw [Bool.eq_false_iff]; intro hc; exact absurd ((htap 30).mp hc) (by norm_num)
    · rw [Bool.eq_false_iff]; intro hc; exact absurd ((hswipe 30).mp hc) (by norm_num)
  · constructor
    · rw [Bool.eq_false_iff]; intro hc; exact absurd ((htap 10).mp hc) (by norm_num)
    · rw [Bool.eq_false_iff]; intro hc; exact absurd ((hswipe 10).mp hc) (by norm_num)
  · constructor
    · rw [Bool.eq_false_iff]; intro hc; exact absurd ((htap 50).mp hc) (by norm_num)
    · rw [Bool.eq_false_iff]; intro hc; exact absurd ((hswipe 50).mp hc) (by norm_num)

/-- Witness for C6: at the concrete magnitude 30 (inside the neither band),
both classifications are false and a concrete release leaves the initial
context unchanged. -/
theorem tap_swipe_classification_witness :
    isTapGesture 30 = false ∧ isSwipeGesture 30 = false
    ∧ handleInteraction ⟨0, 0⟩ ⟨30, 0⟩ 30 initialCtx = initialCtx := by
  have h := (tap_swipe_classification 30).2.2.1 (by norm_num) (by norm_num)
  exact ⟨h.1, h.2.1, h.2.2 ⟨0, 0⟩ ⟨30, 0⟩ initialCtx⟩

/-- C10: after every animation-loop iteration the `uDistortionStrength`
uniform equals the internal `distortion` state, which starts at `1.0` and is
lerped toward `targetDistortion`; `targetDistortion` is only ever written to
`0.0` by an initial zoom-in and to `1.0` by unzoom (a non-initial navigation
leaves it unchanged); consequently an iteration produces identical post-frame
states for two runs that differ only in the `distortionStrength` prop written
into the uniform by `useUniforms`. -/
theorem distortion_uniform_independent_of_prop :
    (∀ c : Ctx, (animateStep c).uDistortionStrength = (animateStep c).distortion)
    ∧ (∀ c : Ctx, (animateStep c).distortion
        = c.distortion + (c.targetDistortion - c.distortion) * AnimationConfig.lerpFactor)
    ∧ initialCtx.distortion = 1 ∧ initialCtx.targetDistortion = 1
    ∧ (∀ (c : Ctx) (cell : Vec2), (navigateToCell cell true c).targetDistortion = 0)
    ∧ (∀ (c : Ctx) (cell : Vec2),
        (navigateToCell cell false c).targetDistortion = c.targetDistortion)
    ∧ (∀ c : Ctx, (unzoom c).targetDistortion = 1)
    ∧ (∀ (c : Ctx) (cs p₁ p₂ : ℚ),
        animateStep (useUniformsScalar cs p₁ c) = animateStep (useUniformsScalar cs p₂ c)) := by
  refine ⟨fun c => rfl, fun c => rfl, rfl, rfl, ?_, ?_, fun c => rfl, ?_⟩
  · intro c cell; simp [navigateToCell]
  · intro c cell; simp [navigateToCell]
  · intro c cs p₁ p₂
    simp [animateStep, useUniformsScalar]

end Grid

namespace Grid

/-- The offset spring state of one component: the integrator of
`useAnimationLoop.ts` acts componentwise on `offset`/`offsetVelocity`. -/
structure SpringState where
  offset : ℚ
  velocity : ℚ
deriving DecidableEq, Repr

/-- One integrator step for a fixed target (`useAnimationLoop.ts`):

```
const force = context.targetOffset.clone().sub(context.offset).multiplyScalar(springStiffness);
context.offsetVelocity.add(force).multiplyScalar(damping);
context.offset.add(context.offsetVelocity);
```
-/
def springStep (target : ℚ) (s : SpringState) : SpringState :=
  let force := (target - s.offset) * AnimationConfig.springStiffness
  let velocity := (s.velocity + force) * AnimationConfig.damping
  { offset := s.offset + velocity, velocity := velocity }

/-- `n` integrator steps with a fixed target. -/
def springIter (target : ℚ) (s : SpringState) : ℕ → SpringState
  | 0 => s
  | n + 1 => springStep target (springIter target s n)

theorem springIter_succ (t : ℚ) (s : SpringState) (n : ℕ) :
    springIter t s (n + 1) = springStep t (springIter t s n) := rfl

/-- Writing `v` for the velocity and `e = target - offset` for the error, one
step maps `(v, e)` to `(3/4·v + 3/80·e, 77/80·e - 3/4·v)` (with stiffness
`0.05` and damping `0.75`). -/
theorem spring_recurrence (t : ℚ) (s : SpringState) :
    (springStep t s).velocity = (3/4) * s.velocity + (3/80) * (t - s.offset)
    ∧ t - (springStep t s).offset
        = (77/80) * (t - s.offset) - (3/4) * s.velocity := by
  constructor <;>
    (simp [springStep, AnimationConfig.springStiffness, AnimationConfig.damping]; ring)

/-- A quadratic Lyapunov form for the spring recurrence (the step matrix has
complex eigenvalues of squared modulus `3/4 < 4/5`). -/
def lyapQ (v e : ℚ) : ℚ := 33412 * v^2 - 9466 * v * e + 1670 * e^2

theorem lyapQ_decay (v e : ℚ) :
    lyapQ ((3/4)*v + (3/80)*e) ((77/80)*e - (3/4)*v) ≤ (4/5) * lyapQ v e := by
  simp only [lyapQ]
  nlinarith [sq_nonneg (2674160*v - 379300*e), sq_nonneg e, sq_nonneg v]

theorem lyapQ_lower (v e : ℚ) : 999 * e^2 ≤ lyapQ v e := by
  simp only [lyapQ]
  nlinarith [sq_nonneg (66824*v - 9466*e), sq_nonneg e]

/-- Along the iteration (zero initial velocity) the Lyapunov value decays
geometrically from its initial value `1670·(t - o0)²`. -/
theorem lyapQ_iter (t o0 : ℚ) (n : ℕ) :
    lyapQ (springIter t ⟨o0, 0⟩ n).velocity (t - (springIter t ⟨o0, 0⟩ n).offset)
      ≤ (4/5)^n * (1670 * (t - o0)^2) := by
  induction n with
  | zero =>
      simp only [springIter, lyapQ, pow_zero, one_mul]
      nlinarith [sq_nonneg (t - o0)]
  | succ n ih =>
      have hrec := spring_recurrence t (springIter t ⟨o0, 0⟩ n)
      have hdecay := lyapQ_decay (springIter t ⟨o0, 0⟩ n).velocity
        (t - (springIter t ⟨o0, 0⟩ n).offset)
      rw [springIter_succ, hrec.1] at *
      rw [hrec.2]
      calc lyapQ ((3/4) * (springIter t ⟨o0, 0⟩ n).velocity
              + (3/80) * (t - (springIter t ⟨o0, 0⟩ n).offset))
            ((77/80) * (t - (springIter t ⟨o0, 0⟩ n).offset)
              - (3/4) * (springIter t ⟨o0, 0⟩ n).velocity)
          ≤ (4/5) * lyapQ (springIter t ⟨o0, 0⟩ n).velocity
              (t - (springIter t ⟨o0, 0⟩ n).offset) := hdecay
        _ ≤ (4/5) * ((4/5)^n * (1670 * (t - o0)^2)) := by
            have := mul_le_mul_of_nonneg_left ih (by norm_num : (0:ℚ) ≤ 4/5)
            linarith
        _ = (4/5)^(n+1) * (1670 * (t - o0)^2) := by ring

/-- Bernoulli-style bound making the geometric decay effective in ℚ. -/
theorem pow_four_fifths_le (n : ℕ) : (4/5 : ℚ)^n ≤ 4 / ((n : ℚ) + 4) := by
  induction n with
  | zero => norm_num
  | succ n ih =>
      have h4 : (0:ℚ) < (n:ℚ) + 4 := by positivity
      have h5 : (0:ℚ) < (n:ℚ) + 5 := by positivity
      have hstep : (4/5 : ℚ)^(n+1) = (4/5) * (4/5)^n := by ring
      have h1 : (4/5 : ℚ)^(n+1) ≤ (4/5) * (4 / ((n:ℚ)+4)) := by
        rw [hstep]
        have := mul_le_mul_of_nonneg_left ih (by norm_num : (0:ℚ) ≤ 4/5)
        linarith
      have h2 : (4/5 : ℚ) * (4 / ((n:ℚ)+4)) ≤ 4 / ((n:ℚ)+5) := by
        rw [show (4/5 : ℚ) * (4 / ((n:ℚ)+4)) = (16/5) / ((n:ℚ)+4) by ring,
          div_le_div_iff₀ h4 h5]
        nlinarith
      have hcast : ((n+1 : ℕ) : ℚ) + 4 = (n:ℚ) + 5 := by push_cast; ring
      rw [hcast]
      linarith

end Grid

namespace Grid

/-- Counterexample to C7 as stated: with target `1`, initial offset `0` and
zero initial velocity, the squared distance to the target increases from step
15 to step 16 — the offset overshoots the target (the error changes sign), so
the approach is not monotonic.  (Stiffness `0.05`, damping `0.75` give the
step matrix complex eigenvalues: the spring is underdamped and oscillates.) -/
theorem spring_approach_not_monotonic :
    ((1:ℚ) - (springIter 1 ⟨0, 0⟩ 15).offset)^2
        < ((1:ℚ) - (springIter 1 ⟨0, 0⟩ 16).offset)^2
    ∧ (0:ℚ) < 1 - (springIter 1 ⟨0, 0⟩ 15).offset
    ∧ 1 - (springIter 1 ⟨0, 0⟩ 16).offset < 0 := by
  refine ⟨?_, ?_, ?_⟩ <;>
    norm_num [springIter, springStep, AnimationConfig.springStiffness,
      AnimationConfig.damping]

/-- C7 (amended): iterating the Integrator step
(`force = (target - offset)*0.05; velocity = (velocity + force)*0.75;
offset += velocity`, exactly the componentwise action of `animateStep` on
`offset`/`offsetVelocity`) with a fixed target and zero initial velocity
brings `offset` within every positive tolerance `ε` of the target after a
bounded number of steps — but (see the counterexample) the approach is not
monotonic: the underdamped spring overshoots. -/
theorem integrator_convergence (t o0 ε : ℚ) (hε : 0 < ε) :
    (∀ c : Ctx,
      (animateStep c).offset.x
          = (springStep c.targetOffset.x ⟨c.offset.x, c.offsetVelocity.x⟩).offset
      ∧ (animateStep c).offsetVelocity.x
          = (springStep c.targetOffset.x ⟨c.offset.x, c.offsetVelocity.x⟩).velocity
      ∧ (animateStep c).offset.y
          = (springStep c.targetOffset.y ⟨c.offset.y, c.offsetVelocity.y⟩).offset
      ∧ (animateStep c).offsetVelocity.y
          = (springStep c.targetOffset.y ⟨c.offset.y, c.offsetVelocity.y⟩).velocity)
    ∧ ∃ N : ℕ, ∀ n, N ≤ n → |t - (springIter t ⟨o0, 0⟩ n).offset| ≤ ε := by
  constructor
  · intro c
    refine ⟨?_, ?_, ?_, ?_⟩ <;>
      simp [animateStep, springStep, Vec2.add, Vec2.sub, Vec2.mulS]
  refine ⟨(⌈8 * (t - o0)^2 / ε^2⌉).toNat, fun n hn => ?_⟩
  have hQl : 999 * (t - (springIter t ⟨o0, 0⟩ n).offset)^2
      ≤ lyapQ (springIter t ⟨o0, 0⟩ n).velocity
          (t - (springIter t ⟨o0, 0⟩ n).offset) := lyapQ_lower _ _
  have hQu := lyapQ_iter t o0 n
  have hpow := pow_four_fifths_le n
  have he0 : (0:ℚ) ≤ 1670 * (t - o0)^2 := by positivity
  have hn4 : (0:ℚ) < (n:ℚ) + 4 := by positivity
  have h1 : 999 * (t - (springIter t ⟨o0, 0⟩ n).offset)^2
      ≤ (4 / ((n:ℚ) + 4)) * (1670 * (t - o0)^2) :=
    le_trans (le_trans hQl hQu) (mul_le_mul_of_nonneg_right hpow he0)
  have hε2 : (0:ℚ) < ε^2 := by positivity
  have hNceil : 8 * (t - o0)^2 / ε^2 ≤ ((⌈8 * (t - o0)^2 / ε^2⌉.toNat : ℕ) : ℚ) := by
    have h := Int.le_ceil (8 * (t - o0)^2 / ε^2)
    have h2 : ((⌈8 * (t - o0)^2 / ε^2⌉ : ℤ) : ℚ)
        ≤ ((⌈8 * (t - o0)^2 / ε^2⌉.toNat : ℕ) : ℚ) := by
      exact_mod_cast Int.self_le_toNat _
    linarith
  have hnQ : ((⌈8 * (t - o0)^2 / ε^2⌉.toNat : ℕ) : ℚ) ≤ (n : ℚ) := by
    exact_mod_cast hn
  have hkey : 8 * (t - o0)^2 ≤ ε^2 * ((n:ℚ) + 4) := by
    have hx : 8 * (t - o0)^2 / ε^2 ≤ (n:ℚ) := le_trans hNceil hnQ
    rw [div_le_iff₀ hε2] at hx
    nlinarith
  have h2 : (999 * (t - (springIter t ⟨o0, 0⟩ n).offset)^2) * ((n:ℚ) + 4)
      ≤ (835 * ε^2) * ((n:ℚ) + 4) := by
    have h3 := mul_le_mul_of_nonneg_right h1 (le_of_lt hn4)
    have h4 : (4 / ((n:ℚ) + 4)) * (1670 * (t - o0)^2) * ((n:ℚ) + 4)
        = 6680 * (t - o0)^2 := by
      field_simp
      ring
    nlinarith
  have h5 : 999 * (t - (springIter t ⟨o0, 0⟩ n).offset)^2 ≤ 835 * ε^2 :=
    le_of_mul_le_mul_right h2 hn4
  have h6 : (t - (springIter t ⟨o0, 0⟩ n).offset)^2 ≤ ε^2 := by nlinarith
  rcases abs_cases (t - (springIter t ⟨o0, 0⟩ n).offset) with ⟨habs, hsgn⟩ | ⟨habs, hsgn⟩ <;>
    rw [habs] <;> nlinarith

/-- Witness for C7 at target `1`, initial offset `0`, tolerance `1/10`. -/
theorem integrator_convergence_witness :
    (0:ℚ) < 1/10
    ∧ ((∀ c : Ctx,
        (animateStep c).offset.x
            = (springStep c.targetOffset.x ⟨c.offset.x, c.offsetVelocity.x⟩).offset
        ∧ (animateStep c).offsetVelocity.x
            = (springStep c.targetOffset.x ⟨c.offset.x, c.offsetVelocity.x⟩).velocity
        ∧ (animateStep c).offset.y
            = (springStep c.targetOffset.y ⟨c.offset.y, c.offsetVelocity.y⟩).offset
        ∧ (animateStep c).offsetVelocity.y
            = (springStep c.targetOffset.y ⟨c.offset.y, c.offsetVelocity.y⟩).velocity)
      ∧ ∃ N : ℕ, ∀ n, N ≤ n → |1 - (springIter 1 ⟨0, 0⟩ n).offset| ≤ (1/10 : ℚ)) :=
  ⟨by norm_num, integrator_convergence 1 0 (1/10) (by norm_num)⟩

end Grid

namespace Grid

/-- Phase of one in-flight `setVideoState` invocation (`useVideoManager.ts`).
The synchronous prefix (nonce capture `++context.videoNonce`, deactivating
`uIsVideoActive`, pausing, and the early nonce check — which trivially passes
at issue time because no await precedes it) is the `issue` transition; the two
`await` points (`videoRef.load()` and `videoRef.play()`) split the rest into
two resumption steps. -/
inductive VPhase
  | idle
  | issued
  | loaded
  | finished
deriving DecidableEq, Repr

/-- The two competing `setVideoState` invocations of the race scenario. -/
inductive Req
  | A
  | B
deriving DecidableEq, Repr

/-- Global state of the video subsystem: the `videoNonce` counter, which
request's completion set `uIsVideoActive := true` last (`none` = inactive),
the last writer of `uHoveredCellId`, and each request's captured nonce and
phase.  Both requests are taken to target projects with a video reference
(the `!newSrc` early-return would only end a request sooner). -/
structure VState where
  counter : ℕ
  active : Option Req
  hovered : Option Req
  nonceA : Option ℕ
  nonceB : Option ℕ
  phaseA : VPhase
  phaseB : VPhase
deriving DecidableEq, Repr

/-- Initial state: `videoNonce: 0` (`config.ts`), `uIsVideoActive: false`. -/
def initV : VState :=
  { counter := 0, active := none, hovered := none,
    nonceA := none, nonceB := none, phaseA := .idle, phaseB := .idle }

/-- Interleavable transitions: each request's issue (synchronous prefix of
`setVideoState`), its load completion (which copies the cellId into
`uHoveredCellId` — unguarded in the source), and its play completion (which
sets `uIsVideoActive := true` only under the final nonce check
`currentNonce === context.videoNonce`). -/
inductive VStep
  | issueA
  | issueB
  | loadA
  | loadB
  | playA
  | playB
deriving DecidableEq, Repr

/-- Execute one transition; transitions whose request is not at the matching
phase are no-ops (a request resumes only once per await point). -/
def vexec (s : VState) : VStep → VState
  | .issueA =>
      if s.phaseA = .idle then
        { s with counter := s.counter + 1, nonceA := some (s.counter + 1),
                 active := none, phaseA := .issued }
      else s
  | .issueB =>
      if s.phaseB = .idle then
        { s with counter := s.counter + 1, nonceB := some (s.counter + 1),
                 active := none, phaseB := .issued }
      else s
  | .loadA =>
      if s.phaseA = .issued then { s with hovered := some .A, phaseA := .loaded }
      else s
  | .loadB =>
      if s.phaseB = .issued then { s with hovered := some .B, phaseB := .loaded }
      else s
  | .playA =>
      if s.phaseA = .loaded then
        { s with phaseA := .finished,
                 active := if s.nonceA = some s.counter then some .A else s.active }
      else s
  | .playB =>
      if s.phaseB = .loaded then
        { s with phaseB := .finished,
                 active := if s.nonceB = some s.counter then some .B else s.active }
      else s

/-- All states visited while executing a step list (including the start and
final states). -/
def statesAlong (s : VState) : List VStep → List VState
  | [] => [s]
  | st :: rest => s :: statesAlong (vexec s st) rest

/-- The race scenario of the claim: `setVideoState(cellA)` is issued first,
then after an arbitrary interleaving `l₁` (in which A's play has not yet
completed), `setVideoState(cellB)` is issued, followed by an arbitrary
interleaving `l₂`. -/
def raceScenario (l₁ l₂ : List VStep) : List VStep :=
  VStep.issueA :: l₁ ++ VStep.issueB :: l₂

/-- Invariant between A's issue and B's issue: A holds a nonce bounded by the
counter, nothing is active, and B has not started. -/
def InvPhase1 (s : VState) : Prop :=
  (∃ a, s.nonceA = some a ∧ a ≤ s.counter)
  ∧ s.active = none ∧ s.phaseB = VPhase.idle ∧ s.phaseA ≠ VPhase.idle

/-- Invariant after B's issue: A's nonce is strictly below B's, which is
bounded by the counter, and A is never the active request. -/
def InvPhase2 (s : VState) : Prop :=
  (∃ a b, s.nonceA = some a ∧ s.nonceB = some b ∧ a < b ∧ b ≤ s.counter)
  ∧ s.active ≠ some Req.A ∧ s.phaseA ≠ VPhase.idle ∧ s.phaseB ≠ VPhase.idle

theorem invPhase1_step (s : VState) (st : VStep)
    (h : InvPhase1 s) (hA : st ≠ VStep.issueA) (hB : st ≠ VStep.issueB)
    (hP : st ≠ VStep.playA) : InvPhase1 (vexec s st) := by
  obtain ⟨⟨a, ha, hle⟩, hact, hpb, hpa⟩ := h
  cases st with
  | issueA => exact absurd rfl hA
  | issueB => exact absurd rfl hB
  | playA => exact absurd rfl hP
  | loadA =>
      by_cases hg : s.phaseA = VPhase.issued
      · simp only [vexec, if_pos hg]
        exact ⟨⟨a, ha, hle⟩, hact, hpb, by simp⟩
      · simp only [vexec, if_neg hg]
        exact ⟨⟨a, ha, hle⟩, hact, hpb, hpa⟩
  | loadB =>
      have hg : ¬ s.phaseB = VPhase.issued := by rw [hpb]; simp
      simp only [vexec, if_neg hg]
      exact ⟨⟨a, ha, hle⟩, hact, hpb, hpa⟩
  | playB =>
      have hg : ¬ s.phaseB = VPhase.loaded := by rw [hpb]; simp
      simp only [vexec, if_neg hg]
      exact ⟨⟨a, ha, hle⟩, hact, hpb, hpa⟩

theorem invPhase2_step (s : VState) (st : VStep)
    (h : InvPhase2 s) : InvPhase2 (vexec s st) := by
  obtain ⟨⟨a, b, ha, hb, hab, hle⟩, hact, hpa, hpb⟩ := h
  cases st with
  | issueA =>
      simp only [vexec, if_neg hpa]
      exact ⟨⟨a, b, ha, hb, hab, hle⟩, hact, hpa, hpb⟩
  | issueB =>
      simp only [vexec, if_neg hpb]
      exact ⟨⟨a, b, ha, hb, hab, hle⟩, hact, hpa, hpb⟩
  | loadA =>
      by_cases hg : s.phaseA = VPhase.issued
      · simp only [vexec, if_pos hg]
        exact ⟨⟨a, b, ha, hb, hab, hle⟩, hact, by simp, hpb⟩
      · simp only [vexec, if_neg hg]
        exact ⟨⟨a, b, ha, hb, hab, hle⟩, hact, hpa, hpb⟩
  | loadB =>
      by_cases hg : s.phaseB = VPhase.issued
      · simp only [vexec, if_pos hg]
        exact ⟨⟨a, b, ha, hb, hab, hle⟩, hact, hpa, by simp⟩
      · simp only [vexec, if_neg hg]
        exact ⟨⟨a, b, ha, hb, hab, hle⟩, hact, hpa, hpb⟩
  | playA =>
      by_cases hg : s.phaseA = VPhase.loaded
      · have hcond : ¬ s.nonceA = some s.counter := by
          rw [ha]
          intro hc
          have ha2 : a = s.counter := by injection hc
          omega
        simp only [vexec, if_pos hg, if_neg hcond]
        exact ⟨⟨a, b, ha, hb, hab, hle⟩, hact, by simp, hpb⟩
      · simp only [vexec, if_neg hg]
        exact ⟨⟨a, b, ha, hb, hab, hle⟩, hact, hpa, hpb⟩
  | playB =>
      by_cases hg : s.phaseB = VPhase.loaded
      · by_cases hcond : s.nonceB = some s.counter
        · simp only [vexec, if_pos hg, if_pos hcond]
          exact ⟨⟨a, b, ha, hb, hab, hle⟩, by simp, hpa, by simp⟩
        · simp only [vexec, if_pos hg, if_neg hcond]
          exact ⟨⟨a, b, ha, hb, hab, hle⟩, hact, hpa, by simp⟩
      · simp only [vexec, if_neg hg]
        exact ⟨⟨a, b, ha, hb, hab, hle⟩, hact, hpa, hpb⟩

theorem invPhase1_to_2 (s : VState) (h : InvPhase1 s) :
    InvPhase2 (vexec s VStep.issueB) := by
  obtain ⟨⟨a, ha, hle⟩, hact, hpb, hpa⟩ := h
  simp only [vexec, if_pos hpb]
  refine ⟨⟨a, s.counter + 1, ha, rfl, ?_, ?_⟩, by simp, hpa, by simp⟩
  · show a < s.counter + 1
    omega
  · show s.counter + 1 ≤ s.counter + 1
    omega

end Grid

namespace Grid

/-- Once `InvPhase2` holds, no later state of any interleaving ever has A as
the active request. -/
theorem phase2_run (l : List VStep) (s : VState) (hs : InvPhase2 s) :
    ∀ s' ∈ statesAlong s l, s'.active ≠ some Req.A := by
  induction l generalizing s with
  | nil =>
      intro s' hmem
      simp only [statesAlong, List.mem_singleton] at hmem
      exact hmem ▸ hs.2.1
  | cons st rest ih =>
      intro s' hmem
      simp only [statesAlong, List.mem_cons] at hmem
      rcases hmem with rfl | hmem
      · exact hs.2.1
      · exact ih (vexec s st) (invPhase2_step s st hs) s' hmem

/-- Running the pre-`issueB` interleaving and then `issueB` and anything
afterwards never activates A. -/
theorem phase1_then (l₁ : List VStep) (s : VState) (hs : InvPhase1 s)
    (h1 : VStep.issueA ∉ l₁) (h2 : VStep.issueB ∉ l₁) (h3 : VStep.playA ∉ l₁)
    (l₂ : List VStep) :
    ∀ s' ∈ statesAlong s (l₁ ++ VStep.issueB :: l₂), s'.active ≠ some Req.A := by
  induction l₁ generalizing s with
  | nil =>
      intro s' hmem
      simp only [List.nil_append, statesAlong, List.mem_cons] at hmem
      rcases hmem with rfl | hmem
      · rw [hs.2.1]; simp
      · exact phase2_run l₂ (vexec s VStep.issueB) (invPhase1_to_2 s hs) s' hmem
  | cons st rest ih =>
      intro s' hmem
      simp only [List.cons_append, statesAlong, List.mem_cons] at hmem
      rcases hmem with rfl | hmem
      · rw [hs.2.1]; simp
      · have hstep := invPhase1_step s st hs
          (by intro hc; exact h1 (hc ▸ List.mem_cons_self st rest))
          (by intro hc; exact h2 (hc ▸ List.mem_cons_self st rest))
          (by intro hc; exact h3 (hc ▸ List.mem_cons_self st rest))
        exact ih (vexec s st) hstep
          (fun hc => h1 (List.mem_cons_of_mem st hc))
          (fun hc => h2 (List.mem_cons_of_mem st hc))
          (fun hc => h3 (List.mem_cons_of_mem st hc)) s' hmem

/-- C5: if `setVideoState(cellA)` is issued and then `setVideoState(cellB)`
is issued before A's load/play completes (A's play-completion step is not in
the interleaving `l₁` preceding B's issue), then in every state along every
interleaving of the two requests' remaining steps, request A is never the one
whose completion holds `uIsVideoActive` — only B's media (or none) is ever
active; A's completion, whenever it arrives, fails the final nonce check
(`currentNonce === context.videoNonce`) because B's issue bumped the counter
past A's captured nonce, and is discarded silently. -/
theorem nonce_race (l₁ l₂ : List VStep)
    (h1 : VStep.issueA ∉ l₁) (h2 : VStep.issueB ∉ l₁) (h3 : VStep.playA ∉ l₁) :
    ∀ s' ∈ statesAlong initV (raceScenario l₁ l₂), s'.active ≠ some Req.A := by
  intro s' hmem
  simp only [raceScenario, statesAlong, List.mem_cons] at hmem
  rcases hmem with rfl | hmem
  · simp [initV]
  · have hs1 : InvPhase1 (vexec initV VStep.issueA) := by
      refine ⟨⟨1, ?_, ?_⟩, ?_, ?_, ?_⟩ <;> simp [vexec, initV]
    exact phase1_then l₁ (vexec initV VStep.issueA) hs1 h1 h2 h3 l₂ s' hmem

/-- Witness for C5: a concrete interleaving in which A's load completes
before B is issued, B then loads, plays and becomes active, and A's play
completes last — A is never active at any point, and the final state has B's
media active even though A's completion arrived after it. -/
theorem nonce_race_witness :
    (VStep.issueA ∉ [VStep.loadA]) ∧ (VStep.issueB ∉ [VStep.loadA])
    ∧ (VStep.playA ∉ [VStep.loadA])
    ∧ (∀ s' ∈ statesAlong initV
          (raceScenario [VStep.loadA] [VStep.loadB, VStep.playB, VStep.playA]),
        s'.active ≠ some Req.A)
    ∧ (List.foldl vexec initV
          (raceScenario [VStep.loadA] [VStep.loadB, VStep.playB, VStep.playA])).active
        = some Req.B :=
  ⟨by decide, by decide, by decide,
    nonce_race [VStep.loadA] [VStep.loadB, VStep.playB, VStep.playA]
      (by decide) (by decide) (by decide),
    by decide⟩

end Grid

namespace Grid

/-- An RGB color triple. -/
structure Vec3 where
  r : ℚ
  g : ℚ
  b : ℚ
deriving DecidableEq, Repr

/-- GLSL `mix(x, y, a) = x*(1-a) + y*a`, componentwise. -/
def glslMix (x y : Vec3) (a : ℚ) : Vec3 :=
  ⟨x.r * (1 - a) + y.r * a, x.g * (1 - a) + y.g * a, x.b * (1 - a) + y.b * a⟩

/-- GLSL `mod(x, y) = x - y*floor(x/y)`; undefined (`none`) when `y = 0`. -/
def glslMod (x y : ℚ) : Option ℚ :=
  if y = 0 then none else some (x - y * (⌊x / y⌋ : ℤ))

/-- GLSL division; undefined (`none`) when the divisor is `0`. -/
def glslDiv (x y : ℚ) : Option ℚ :=
  if y = 0 then none else some (x / y)

/-- `drawImage` from the fragment shader (`shaders.ts`), with the GLSL
operations that are undefined at zero modulus/divisor modelled in `Option`
(`none` = the shader computes with undefined values).  `sqrtQ` stands for the
GLSL `sqrt` intrinsic; the two samplers are abstract texture lookups:

```
float hoverScale = 1.0 + hoverIntensity * 0.05;
vec2 imageUV = (cellUV - (1.0 - IMAGE_SIZE * hoverScale) * 0.5) / (IMAGE_SIZE * hoverScale);
float imageAlpha = smoothstep(0.0, 0.01, imageUV.x) * smoothstep(1.0, 0.99, imageUV.x) *
                   smoothstep(0.0, 0.01, imageUV.y) * smoothstep(1.0, 0.99, imageUV.y);
if (imageAlpha > 0.0) {
  bool isHoveredCell = uIsVideoActive && cellId.x == uHoveredCellId.x && cellId.y == uHoveredCellId.y;
  if (isHoveredCell) { imageColor = texture(uActiveVideo, imageUV).rgb; }
  else {
    float texIndex = mod(floor(cellId.x) + floor(cellId.y) * 3.0, uTextureCount);
    float atlasSize = ceil(sqrt(uTextureCount));
    vec2 atlasUV = (vec2(mod(texIndex, atlasSize), floor(texIndex / atlasSize)) + imageUV) / atlasSize;
    float caOffset = uOptimizeMobile ? 0.0 : effectIntensity * 0.01;
    r/g/b = texture(uImageAtlas, atlasUV ± vec2(caOffset, 0.0));
  }
  color = mix(color, imageColor, imageAlpha);
}
return color;
```
-/
def drawImage (color : Vec3) (cellUV cellId : Vec2)
    (hoverIntensity effectIntensity uTextureCount : ℚ)
    (uIsVideoActive : Bool) (uHoveredCellId : Vec2) (uOptimizeMobile : Bool)
    (uImageAtlas uActiveVideo : Vec2 → Vec3) (sqrtQ : ℚ → ℚ) : Option Vec3 :=
  let hoverScale := 1 + hoverIntensity * (5/100)
  let imageUV : Vec2 :=
    ⟨(cellUV.x - (1 - (6/10) * hoverScale) * (1/2)) / ((6/10) * hoverScale),
     (cellUV.y - (1 - (6/10) * hoverScale) * (1/2)) / ((6/10) * hoverScale)⟩
  let imageAlpha := glslSmoothstep 0 (1/100) imageUV.x * glslSmoothstep 1 (99/100) imageUV.x
                  * glslSmoothstep 0 (1/100) imageUV.y * glslSmoothstep 1 (99/100) imageUV.y
  if 0 < imageAlpha then
    if uIsVideoActive && (cellId.x == uHoveredCellId.x) && (cellId.y == uHoveredCellId.y) then
      some (glslMix color (uActiveVideo imageUV) imageAlpha)
    else
      (glslMod ((⌊cellId.x⌋ : ℤ) + (⌊cellId.y⌋ : ℤ) * 3 : ℤ) uTextureCount).bind fun texIndex =>
      let atlasSize : ℚ := (⌈sqrtQ uTextureCount⌉ : ℤ)
      (glslMod texIndex atlasSize).bind fun mx =>
      (glslDiv texIndex atlasSize).bind fun dq =>
      (glslDiv (mx + imageUV.x) atlasSize).bind fun ax =>
      (glslDiv ((⌊dq⌋ : ℤ) + imageUV.y) atlasSize).bind fun ay =>
      let caOffset := if uOptimizeMobile then 0 else effectIntensity * (1/100)
      let r := (uImageAtlas ⟨ax + caOffset, ay⟩).r
      let g := (uImageAtlas ⟨ax, ay⟩).g
      let b := (uImageAtlas ⟨ax - caOffset, ay⟩).b
      some (glslMix color ⟨r, g, b⟩ imageAlpha)
  else some color

/-- C9 (refuted — the guard does not exist in the shader): with
`uTextureCount = 0` (its initial uniform value, and its value whenever the
project list is empty, since `useTextureManager` only ever writes
`projects.length` after a non-empty build), a pixel in the interior of a
cell's image area with no active hover video reaches the atlas indexing:
`texIndex = mod(flatIndex, 0)` is undefined and every later value (atlas side
`ceil(sqrt(0)) = 0`, the `atlasUV` division by zero, the sampled color mixed
over the background) is undefined — the result is `none`, not the background
color the claim requires.  The concrete pixel: cell centre `cellUV = (1/2, 1/2)`,
any cell id, zero hover.  For every background color, sampler and `sqrt`. -/
theorem textureCount_zero_unguarded (bg : Vec3) (cellId : Vec2)
    (uImageAtlas uActiveVideo : Vec2 → Vec3) (sqrtQ : ℚ → ℚ) :
    drawImage bg ⟨1/2, 1/2⟩ cellId 0 0 0 false ⟨-999, -999⟩ true
        uImageAtlas uActiveVideo sqrtQ = none
    ∧ (∀ c : Vec3, drawImage bg ⟨1/2, 1/2⟩ cellId 0 0 0 false ⟨-999, -999⟩ true
        uImageAtlas uActiveVideo sqrtQ ≠ some c) := by
  have h : drawImage bg ⟨1/2, 1/2⟩ cellId 0 0 0 false ⟨-999, -999⟩ true
      uImageAtlas uActiveVideo sqrtQ = none := by
    simp only [drawImage, glslSmoothstep, glslMod]
    norm_num
  exact ⟨h, fun c => by rw [h]; simp⟩

end Grid
